import Mathlib

/-!
Shallow embedding of the streaming frequency-estimation engine
(zero-crossing detectors, distributed consensus fusion, interpolated-DFT)
of `py-power-systems-frequency-estimator-open-bench`.

Python floats are modelled as exact rationals (`ℚ`); all arithmetic in the
source is field arithmetic, comparisons and branches, so every code path is
representable exactly.  Python `None` becomes `Option`, exceptions become
`Except PyError`, and string-keyed dictionaries become association lists
(`List (key × value)`, first binding wins, as for a Python `dict` that is
never re-assigned on the same key in the modelled traces).
-/

namespace PSFE

/-- Python exception values that the modelled code can raise. -/
inductive PyError where
  | keyError (key : String) : PyError
  | attributeError (msg : String) : PyError
  | valueError (msg : String) : PyError
deriving DecidableEq, Repr

/-! ## `estimators/basic/zcd/core.py` -/

/-- Embeds the `CrossingMode` literal type of `core.py`
(`"neg_to_pos" | "pos_to_neg" | "either"`). -/
inductive CrossingMode where
  | neg_to_pos : CrossingMode
  | pos_to_neg : CrossingMode
  | either : CrossingMode
deriving DecidableEq, Repr

/-- Embeds `ZCDConfig` of `core.py`, with the source's dataclass defaults. -/
structure ZCDConfig where
  epsilon : ℚ := 0
  nominal_hz : ℚ := 60
  mode : CrossingMode := CrossingMode.neg_to_pos
  min_period_s : ℚ := 1 / 1000000
  max_period_s : ℚ := 1
deriving DecidableEq, Repr

/-- Embeds `ZCDState` of `core.py` (every field starts as `None`). -/
structure ZCDState where
  prev_val : Option ℚ := none
  prev_ts : Option ℚ := none
  last_cross_ts : Option ℚ := none
  prev_cross_ts : Option ℚ := none
  last_freq : Option ℚ := none
  prev_freq : Option ℚ := none
deriving DecidableEq, Repr

/-- Embeds the private helper `_sign` of `core.py`: signed region with
deadband, `x > eps → 1`, `x < -eps → -1`, else `0`. -/
def sign_region (x eps : ℚ) : Int :=
  if x > eps then 1 else if x < -eps then -1 else 0

/-- The mode dispatch computing `crossed` in `detect_crossing` of `core.py`:
`neg_to_pos` needs prev-sign = −1 and curr-sign ≥ 0, `pos_to_neg` the
mirror, `either` both signs nonzero and different
(`s1 not in {0, s0}`). -/
def crossing_test (mode : CrossingMode) (s0 s1 : Int) : Bool :=
  match mode with
  | CrossingMode.neg_to_pos => decide (s0 = -1 ∧ 0 ≤ s1)
  | CrossingMode.pos_to_neg => decide (s0 = 1 ∧ s1 ≤ 0)
  | CrossingMode.either => decide (s0 ≠ 0 ∧ s1 ≠ 0 ∧ s1 ≠ s0)

/-- Embeds `detect_crossing` of `core.py`: classify both samples by
`sign_region`, decide the crossing per mode, then linearly interpolate the
crossing time (falling back to `curr_ts` when the two values are equal). -/
def detect_crossing (prev_val prev_ts curr_val curr_ts eps : ℚ)
    (mode : CrossingMode) : Bool × Option ℚ :=
  let s0 := sign_region prev_val eps
  let s1 := sign_region curr_val eps
  let crossed : Bool := crossing_test mode s0 s1
  if crossed then
    let dx := curr_val - prev_val
    if dx = 0 then (true, some curr_ts)
    else (true, some (prev_ts + (curr_ts - prev_ts) * ((-prev_val) / dx)))
  else (false, none)

/-- Return value of `ZCDEstimatorBase.update_scalar`
(`(freq_hz, rocof_hz_s, crossed, t_cross)`). -/
structure ZCDOut where
  freq_hz : ℚ
  rocof_hz_s : ℚ
  crossed : Bool
  t_cross : Option ℚ
deriving DecidableEq, Repr

/-- Embeds `ZCDEstimatorBase.update_scalar` of `core.py`.  The Python method
mutates `self.state` and returns the tuple; here the new state is returned
alongside the output.  The period filter `min_period_s ≤ period ≤
max_period_s` guards every acceptance of a new crossing-derived frequency;
a rejected period leaves the crossing/frequency fields untouched. -/
def update_scalar (cfg : ZCDConfig) (st : ZCDState) (value ts : ℚ) :
    ZCDState × ZCDOut :=
  let cross : Bool × Option ℚ :=
    match st.prev_val, st.prev_ts with
    | some pv, some pts => detect_crossing pv pts value ts cfg.epsilon cfg.mode
    | _, _ => (false, none)
  let crossed := cross.1
  let t_cross := cross.2
  let st1 : ZCDState :=
    if crossed then
      match st.last_cross_ts, t_cross with
      | some lct, some tc =>
        let period := tc - lct
        if cfg.min_period_s ≤ period ∧ period ≤ cfg.max_period_s then
          { st with prev_freq := st.last_freq, last_freq := some (1 / period),
                    prev_cross_ts := some lct, last_cross_ts := some tc }
        else st
      | _, _ => { st with last_cross_ts := t_cross }
    else st
  let st2 : ZCDState := { st1 with prev_val := some value, prev_ts := some ts }
  let freq_hz := st2.last_freq.getD cfg.nominal_hz
  let rocof_hz_s : ℚ :=
    match st2.last_freq, st2.prev_freq, st2.last_cross_ts, st2.prev_cross_ts with
    | some lf, some pf, some lct, some pct =>
      if 0 < lct - pct then (lf - pf) / (lct - pct) else 0
    | _, _, _, _ => 0
  (st2, ⟨freq_hz, rocof_hz_s, crossed, t_cross⟩)

/-- Embeds `ZCDEstimatorBase.reset` of `core.py`: the state is replaced by a
freshly constructed `ZCDState`. -/
def zcd_reset (_st : ZCDState) : ZCDState := {}

/-! ## `utils/pmu/pmu_input.py` and `utils/pmu/pmu_output.py` -/

/-- Embeds the `PMU_Input` dataclass: six channel values and a timestamp. -/
structure PMU_Input where
  V1 : ℚ
  V2 : ℚ
  V3 : ℚ
  I1 : ℚ
  I2 : ℚ
  I3 : ℚ
  timestamp : ℚ
deriving DecidableEq, Repr

/-- Embeds `getattr(measures, name)` for the data attributes of `PMU_Input`
(the seven dataclass slots); any other attribute name yields `none`,
i.e. an `AttributeError` at the call site. -/
def PMU_Input.getChannel (m : PMU_Input) (name : String) : Option ℚ :=
  if name = "V1" then some m.V1
  else if name = "V2" then some m.V2
  else if name = "V3" then some m.V3
  else if name = "I1" then some m.I1
  else if name = "I2" then some m.I2
  else if name = "I3" then some m.I3
  else if name = "timestamp" then some m.timestamp
  else none

/-- Embeds the members of the `PMUStatus` IntFlag as their integer values. -/
def PMUStatus.OK : ℕ := 0x0000

/-- Integer value of `PMUStatus.DATA_ERROR`. -/
def PMUStatus.DATA_ERROR : ℕ := 0x0001

/-- Integer value of `PMUStatus.CLOCK_NOT_SYNCED`. -/
def PMUStatus.CLOCK_NOT_SYNCED : ℕ := 0x0002

/-- Integer value of `PMUStatus.PLL_UNLOCKED`. -/
def PMUStatus.PLL_UNLOCKED : ℕ := 0x0004

/-- Integer value of `PMUStatus.OVER_RANGE`. -/
def PMUStatus.OVER_RANGE : ℕ := 0x0008

/-- Embeds the `PMU_Output` dataclass.  A Python complex phasor is a pair of
rationals `(re, im)`; the phasor map is an association list keyed by channel
name.  `status_word` carries the `PMUStatus` integer value and defaults to
`PMUStatus.OK` exactly as in the source. -/
structure PMU_Output where
  phasors : List (String × ℚ × ℚ)
  frequency_hz : ℚ
  rocof_hz_s : ℚ
  timestamp_utc : ℚ
  status_word : ℕ := PMUStatus.OK
deriving DecidableEq, Repr

/-- Value stored in the flat serialized mapping of
`PMU_Output.to_standard_dict`.  The scalar fields are exact rationals; each
phasor contributes a magnitude entry `float(np.abs(p))` and an angle entry
`float(np.angle(p))`, which are irrational functions of the stored complex
pair, so those entries record the pair they are computed from. -/
inductive StdValue where
  | num (q : ℚ) : StdValue
  | magOf (re im : ℚ) : StdValue
  | angleOf (re im : ℚ) : StdValue
deriving DecidableEq, Repr

/-- Embeds `PMU_Output.to_standard_dict`: the four scalar keys followed by a
`<NAME>_MAG` and `<NAME>_ANGLE_RAD` entry per phasor. -/
def PMU_Output.to_standard_dict (o : PMU_Output) : List (String × StdValue) :=
  [("TIMESTAMP_UTC", StdValue.num o.timestamp_utc),
   ("FREQUENCY_HZ", StdValue.num o.frequency_hz),
   ("ROCOF_HZ_S", StdValue.num o.rocof_hz_s),
   ("STATUS_WORD", StdValue.num (o.status_word : ℚ))] ++
  o.phasors.flatMap (fun p =>
    [(p.1 ++ "_MAG", StdValue.magOf p.2.1 p.2.2),
     (p.1 ++ "_ANGLE_RAD", StdValue.angleOf p.2.1 p.2.2)])

/-! ## `estimators/basic/zcd/single.py` (class `ZeroCrossing`)

The estimator keeps its state in the inherited string-keyed dictionary
`self.memory`.  In every reachable trace that dictionary is in one of two
shapes: after `__init__` it holds all six keys (`prev_val`, `prev_ts`,
`last_cross_ts`, `prev_cross_ts`, `last_freq`, `prev_freq`), each initially
`None`; after the inherited `EstimatorBase.reset` (`self.memory.clear()`)
it holds no keys at all.  The dictionary is therefore modelled as
`Option ZCMemory`: `some` of the six-field record when the keys are
present, `none` when the dictionary is empty.  `update` reads
`self.memory["prev_val"]` first, so on an empty dictionary it raises
`KeyError` for that key. -/

/-- The six `self.memory` entries of `ZeroCrossing` (values all `None` right
after construction). -/
structure ZCMemory where
  prev_val : Option ℚ := none
  prev_ts : Option ℚ := none
  last_cross_ts : Option ℚ := none
  prev_cross_ts : Option ℚ := none
  last_freq : Option ℚ := none
  prev_freq : Option ℚ := none
deriving DecidableEq, Repr

/-- Configuration consumed by `ZeroCrossing.update` via dict/attribute
access with defaults (`channel` → `"V1"`, `epsilon` → `0.0`,
`nominal_hz` → `60.0`).  A sampling-rate entry `fs` may be present in the
configuration mapping but is never read or validated by `ZeroCrossing`. -/
structure ZCSingleConfig where
  channel : String := "V1"
  epsilon : ℚ := 0
  nominal_hz : ℚ := 60
  fs : ℚ := 0
deriving DecidableEq, Repr

/-- The `ZeroCrossing` estimator object: its configuration plus the
`self.memory` dictionary. -/
structure ZeroCrossing where
  config : ZCSingleConfig
  memory : Option ZCMemory
deriving DecidableEq, Repr

/-- Embeds `ZeroCrossing.__init__`: no configuration value is validated
(in particular `fs` is never examined), and `self.memory` is populated with
the six state keys, all `None`.  Construction always succeeds. -/
def ZeroCrossing.init (config : ZCSingleConfig) : Except PyError ZeroCrossing :=
  Except.ok { config := config, memory := some {} }

/-- Embeds the inherited `EstimatorBase.reset` as run on a `ZeroCrossing`
instance: `self.memory.clear()` leaves an empty dictionary (no keys). -/
def ZeroCrossing.reset (e : ZeroCrossing) : ZeroCrossing :=
  { e with memory := none }

/-- The inline crossing test of `ZeroCrossing.update`:
`(prev_val < -eps) and (x >= eps)`. -/
def singleCrossedCond (eps pv x : ℚ) : Bool :=
  decide (pv < -eps ∧ eps ≤ x)

/-- The inline interpolation of `ZeroCrossing.update`: when the slope is
nonzero, `t_cross = prev_ts + (ts - prev_ts) * ((-prev_val) / dx)`;
degenerate zero-slope pairs fall back to the current timestamp. -/
def singleTCross (pv pts x ts : ℚ) : ℚ :=
  let dx := x - pv
  if dx ≠ 0 then pts + (ts - pts) * ((-pv) / dx) else ts

/-- Embeds `ZeroCrossing.update` of `single.py`.  Reads the configured
channel (raising `AttributeError` when `PMU_Input` lacks it), detects a
neg→pos crossing with the inline rule `prev_val < -eps` and `x ≥ eps`,
accepts a new crossing-derived frequency whenever the interpolated period
is strictly positive (there is no `min_period_s`/`max_period_s` filter in
this class), and emits a `PMU_Output` without passing `status_word`. -/
def ZeroCrossing.update (e : ZeroCrossing) (measures : PMU_Input) :
    Except PyError (ZeroCrossing × PMU_Output) :=
  let chan := e.config.channel
  let eps := e.config.epsilon
  let nominal_hz := e.config.nominal_hz
  match measures.getChannel chan with
  | none =>
    Except.error (PyError.attributeError
      ("PMU_Input does not have channel " ++ chan))
  | some x =>
  match e.memory with
  | none => Except.error (PyError.keyError "prev_val")
  | some mem =>
  let ts := measures.timestamp
  let mem1 : ZCMemory :=
    match mem.prev_val, mem.prev_ts with
    | some pv, some pts =>
      if singleCrossedCond eps pv x then
        let t_cross := singleTCross pv pts x ts
        match mem.last_cross_ts with
        | some lct =>
          let period := t_cross - lct
          if 0 < period then
            { mem with prev_freq := mem.last_freq,
                       last_freq := some (1 / period),
                       prev_cross_ts := some lct,
                       last_cross_ts := some t_cross }
          else mem
        | none => { mem with last_cross_ts := some t_cross }
      else mem
    | _, _ => mem
  let mem2 : ZCMemory := { mem1 with prev_val := some x, prev_ts := some ts }
  let frequency_hz := mem2.last_freq.getD nominal_hz
  let rocof_hz_s : ℚ :=
    match mem2.last_freq, mem2.prev_freq, mem2.last_cross_ts, mem2.prev_cross_ts with
    | some lf, some pf, some lct, some pct =>
      if 0 < lct - pct then (lf - pf) / (lct - pct) else 0
    | _, _, _, _ => 0
  let phasors : List (String × ℚ × ℚ) :=
    [("V1", measures.V1, 0), ("V2", measures.V2, 0), ("V3", measures.V3, 0),
     ("I1", measures.I1, 0), ("I2", measures.I2, 0), ("I3", measures.I3, 0)]
  Except.ok ({ e with memory := some mem2 },
    { phasors := phasors, frequency_hz := frequency_hz,
      rocof_hz_s := rocof_hz_s, timestamp_utc := ts })

/-! ## `estimators/basic/zcd/multi.py` (class `ZCDMulti`) -/

/-- Insertion of one value into an ascending list, used to model Python's
`sorted` on rationals. -/
def insertAsc (x : ℚ) : List ℚ → List ℚ
  | [] => [x]
  | y :: ys => if x ≤ y then x :: y :: ys else y :: insertAsc x ys

/-- Ascending sort modelling Python's `sorted` (stability is irrelevant for
plain rational values). -/
def sortAsc (l : List ℚ) : List ℚ := l.foldr insertAsc []

/-- Embeds `_agg` of `multi.py`: empty list → `0.0`; `"mean"` averages;
otherwise the median (`vals_sorted[m]` for odd length, the mean of the two
middle elements for even length). -/
def agg (vals : List ℚ) (mode : String) : ℚ :=
  if vals = [] then 0
  else if mode = "mean" then vals.sum / (vals.length : ℚ)
  else
    let vals_sorted := sortAsc vals
    let m := vals_sorted.length / 2
    if vals_sorted.length % 2 ≠ 0 then vals_sorted.getD m 0
    else (vals_sorted.getD (m - 1) 0 + vals_sorted.getD m 0) / 2

/-- The channel names accepted by `ZCDMulti.__init__`
(`valid: tuple[PhasorName, ...]`). -/
def validChannels : List String := ["V1", "V2", "V3", "I1", "I2", "I3"]

/-- The `ZCDMulti` estimator: the filtered channel list, one shared
`ZCDConfig` for all per-channel cores, the aggregation mode, and one
`ZCDState` per channel (aligned with `channels`). -/
structure ZCDMulti where
  channels : List String
  cfg : ZCDConfig
  agg_mode : String
  cores : List ZCDState
deriving DecidableEq, Repr

/-- Embeds `ZCDMulti.__init__`: requested channels are filtered to the
valid set, an empty result falls back to `["V1","V2","V3"]`, and one fresh
core per channel is created.  Nothing is validated, so construction always
succeeds (no `fs` check exists in this class either). -/
def ZCDMulti.init (cfg_channels : List String) (epsilon nominal_hz : ℚ)
    (mode : CrossingMode) (agg_mode : String) : ZCDMulti :=
  let filtered := cfg_channels.filter (fun c => c ∈ validChannels)
  let channels := if filtered = [] then ["V1", "V2", "V3"] else filtered
  { channels := channels,
    cfg := { epsilon := epsilon, nominal_hz := nominal_hz, mode := mode },
    agg_mode := agg_mode,
    cores := channels.map (fun _ => {}) }

/-- Embeds `ZCDMulti.update`: each configured channel's value
(`getattr(measures, ch, 0.0)`, defaulting to `0.0`) is fed to that
channel's core; the per-channel frequencies and RoCoFs are aggregated with
`_agg`; the `PMU_Output` is built without passing `status_word`. -/
def ZCDMulti.update (e : ZCDMulti) (measures : PMU_Input) :
    ZCDMulti × PMU_Output :=
  let ts := measures.timestamp
  let results : List (ZCDState × ZCDOut) :=
    List.zipWith (fun ch core =>
      update_scalar e.cfg core ((measures.getChannel ch).getD 0) ts)
      e.channels e.cores
  let f_hat := agg (results.map (fun r => r.2.freq_hz)) e.agg_mode
  let r_hat := agg (results.map (fun r => r.2.rocof_hz_s)) e.agg_mode
  let phasors : List (String × ℚ × ℚ) :=
    e.channels.map (fun ch => (ch, (measures.getChannel ch).getD 0, 0))
  ({ e with cores := results.map (fun r => r.1) },
   { phasors := phasors, frequency_hz := f_hat, rocof_hz_s := r_hat,
     timestamp_utc := ts })

/-! ## `estimators/basic/ipdft.py` (class `IpDFT`)

The only transcendental step of `IpDFT` is `np.abs(np.fft.fft(buffer))`,
whose values are irrational.  The magnitude spectrum of the buffer is
therefore abstracted as a parameter `magFn : List ℚ → List ℚ` of `update`
(standing for `np.abs(np.fft.fft(buf, n=frame_len))[:frame_len // 2]`);
every modelled property of `update` holds for an arbitrary `magFn`, hence
in particular for the true DFT magnitudes.  The peak search and parabolic
interpolation applied to the magnitudes — the numerical content of
`_estimate_freq` — are embedded exactly in `estimate_freq_from_mag`. -/

/-- Embeds `np.argmax`: index of the first occurrence of the maximum value
(`0` for the empty list). -/
def argmaxAux : List ℚ → ℕ → ℕ → ℚ → ℕ
  | [], _, best, _ => best
  | x :: xs, i, best, bestVal =>
    if bestVal < x then argmaxAux xs (i + 1) i x
    else argmaxAux xs (i + 1) best bestVal

/-- First index attaining the maximum of the list (`np.argmax`). -/
def argmax : List ℚ → ℕ
  | [] => 0
  | x :: xs => argmaxAux xs 1 0 x

/-- Embeds the peak-refinement arithmetic of `IpDFT._estimate_freq`, applied
to the magnitude list `mag` of the first `frame_len // 2` bins: find the
peak bin `k = np.argmax(mag)`; when `1 ≤ k < len(mag) - 1`, refine with
`delta = 0.5 * (mag[k-1] - mag[k+1]) / (mag[k-1] - 2*mag[k] + mag[k+1])`
guarded to `0` on a zero denominator; otherwise `delta = 0`; return
`(k + delta) * fs / frame_len`. -/
def estimate_freq_from_mag (mag : List ℚ) (fs : ℚ) (frame_len : ℕ) : ℚ :=
  let k := argmax mag
  let delta : ℚ :=
    if 1 ≤ k ∧ k < mag.length - 1 then
      let m0 := mag.getD (k - 1) 0
      let m1 := mag.getD k 0
      let m2 := mag.getD (k + 1) 0
      let denom := m0 - 2 * m1 + m2
      if denom ≠ 0 then (1 / 2) * (m0 - m2) / denom else 0
    else 0
  ((k : ℚ) + delta) * fs / (frame_len : ℚ)

/-- The `IpDFT` estimator state: validated configuration values plus the
ring buffer (a list of length `frame_len`), the write cursor, the filled
flag and the previous estimate used for RoCoF. -/
structure IpDFT where
  fs : ℚ
  frame_len : ℕ
  channel : String
  nominal_hz : ℚ
  buffer : List ℚ
  ptr : ℕ
  filled : Bool
  last_freq : Option ℚ
  last_ts : Option ℚ
deriving DecidableEq, Repr

/-- Embeds `IpDFT.__init__`: raises `ValueError` when `fs ≤ 0`, then when
`frame_len ≤ 2`; otherwise allocates the zero buffer and clears the
cursor/flags.  These are the only construction-time checks. -/
def IpDFT.init (fs : ℚ) (frame_len : ℕ) (channel : String) (nominal_hz : ℚ) :
    Except PyError IpDFT :=
  if fs ≤ 0 then Except.error (PyError.valueError "IpDFT requires config fs > 0")
  else if frame_len ≤ 2 then
    Except.error (PyError.valueError "IpDFT requires frame_len >= 3")
  else
    Except.ok { fs := fs, frame_len := frame_len, channel := channel,
                nominal_hz := nominal_hz,
                buffer := List.replicate frame_len 0, ptr := 0,
                filled := false, last_freq := none, last_ts := none }

/-- Embeds `IpDFT.reset`: zero the buffer, clear cursor, flag and the
previous estimate (plus the inherited `memory.clear()`, which is a no-op
here since `IpDFT` never stores memory keys). -/
def IpDFT.reset (e : IpDFT) : IpDFT :=
  { e with buffer := List.replicate e.frame_len 0, ptr := 0, filled := false,
           last_freq := none, last_ts := none }

/-- Embeds `IpDFT.update` with the magnitude spectrum abstracted as
`magFn` (see section comment).  The sample is read with
`getattr(measures, self.channel, 0.0)` — a missing channel silently
defaults to `0.0` and never raises — the ring buffer advances, and once
filled the frequency comes from the peak-interpolation formula applied to
`magFn buffer`; the output is built without passing `status_word`. -/
def IpDFT.update (magFn : List ℚ → List ℚ) (e : IpDFT) (measures : PMU_Input) :
    IpDFT × PMU_Output :=
  let ts := measures.timestamp
  let x := (measures.getChannel e.channel).getD 0
  let buffer := e.buffer.set e.ptr x
  let ptr := (e.ptr + 1) % e.frame_len
  let filled := e.filled || decide (ptr = 0)
  let f_hat : ℚ :=
    if filled then estimate_freq_from_mag (magFn buffer) e.fs e.frame_len
    else e.nominal_hz
  let r_hat : ℚ :=
    match e.last_freq, e.last_ts with
    | some lf, some lts => if 0 < ts - lts then (f_hat - lf) / (ts - lts) else 0
    | _, _ => 0
  let phasors : List (String × ℚ × ℚ) :=
    [("V1", measures.V1, 0), ("V2", measures.V2, 0), ("V3", measures.V3, 0),
     ("I1", measures.I1, 0), ("I2", measures.I2, 0), ("I3", measures.I3, 0)]
  ({ e with buffer := buffer, ptr := ptr, filled := filled,
            last_freq := some f_hat, last_ts := some ts },
   { phasors := phasors, frequency_hz := f_hat, rocof_hz_s := r_hat,
     timestamp_utc := ts })

/-! ## `estimators/basic/zcd/distributed.py`

An adjacency mapping `dict[str, list[str]]` is modelled as an association
list.  The weight dictionary `W` built by `metropolis_weights` is modelled
extensionally: every read of it in the source goes through
`W.get((i, j), 0.0)`, so it is embedded as the total function
`metropolis_weights adj i j` returning that defaulted lookup. -/

/-- Adjacency mapping: node id to its neighbor list. -/
abbrev Adjacency := List (String × List String)

/-- Embeds the degree table of `metropolis_weights`:
`deg[i] = max(1, len(adj[i]))` for keys of `adj`, and the defaulted read
`deg.get(j, 1)` for non-keys (an absent node has an empty neighbor list,
giving the same value `max 1 0 = 1`). -/
def deg (adj : Adjacency) (i : String) : ℕ :=
  max 1 ((adj.lookup i).getD []).length

/-- The per-neighbor Metropolis-Hastings weight written by the loop body of
`metropolis_weights`: `w_ij = 1 / (1 + max(deg(i), deg(j)))`. -/
def neighborWeight (adj : Adjacency) (i j : String) : ℚ :=
  1 / (1 + ((max (deg adj i) (deg adj j) : ℕ) : ℚ))

/-- The running sum `s` accumulated over node `i`'s neighbor list in
`metropolis_weights` (one summand per list occurrence). -/
def neighborSum (adj : Adjacency) (i : String) : ℚ :=
  (((adj.lookup i).getD []).map (fun j => neighborWeight adj i j)).sum

/-- The self-weight written last for each row:
`W[(i, i)] = max(0.0, 1.0 - s)`. -/
def selfWeight (adj : Adjacency) (i : String) : ℚ :=
  max 0 (1 - neighborSum adj i)

/-- Embeds the dictionary built by `metropolis_weights` of `distributed.py`
through its only read pattern `W.get((i, j), 0.0)`: for a key row `i`, the
entry `(i, i)` holds the self-weight (written last, so it wins even for a
self-loop), `(i, j)` for a listed neighbor `j ≠ i` holds the neighbor
weight, and every other pair reads as `0`. -/
def metropolis_weights (adj : Adjacency) (i j : String) : ℚ :=
  if (adj.lookup i).isSome then
    if j = i then selfWeight adj i
    else if j ∈ (adj.lookup i).getD [] then neighborWeight adj i j
    else 0
  else 0

/-- Embeds the construction-time test
`any(self.adj.values())` (Python truthiness of the neighbor lists): the
weight table is built, and is then nonempty, exactly when some node has a
nonempty neighbor list. -/
def hasGraph (adj : Adjacency) : Bool :=
  adj.any (fun p => ¬p.2.isEmpty)

/-- The `DistributedZCD` manager: node list, the shared core configuration,
one keyed `ZCDState` per node (aligned with `nodes`), the normalized
adjacency (`{n: list(config.get("adjacency", {}).get(n, [])) for n in
self.nodes}`), fuse mode, blend factor `alpha`, and the cached last fused
estimates. -/
structure DistributedZCD where
  nodes : List String
  coreCfg : ZCDConfig
  cores : List (String × ZCDState)
  adj : Adjacency
  fuse_mode : String
  alpha : ℚ
  last_fused_freq : Option ℚ
  last_fused_rocof : Option ℚ
deriving DecidableEq, Repr

/-- Embeds `DistributedZCD.__init__`: raises `ValueError` for an empty node
list; otherwise builds one fresh core per node and restricts the supplied
adjacency to the configured nodes (missing entries become `[]`).  No other
configuration value — in particular no sampling rate — is validated. -/
def DistributedZCD.init (nodes : List String) (adjacency : Adjacency)
    (epsilon nominal_hz : ℚ) (mode : CrossingMode) (fuse : String)
    (consensus_alpha : ℚ) : Except PyError DistributedZCD :=
  if nodes = [] then
    Except.error (PyError.valueError "DistributedZCD requires config nodes")
  else
    Except.ok
      { nodes := nodes,
        coreCfg := { epsilon := epsilon, nominal_hz := nominal_hz, mode := mode },
        cores := nodes.map (fun n => (n, {})),
        adj := nodes.map (fun n => (n, (adjacency.lookup n).getD [])),
        fuse_mode := fuse, alpha := consensus_alpha,
        last_fused_freq := none, last_fused_rocof := none }

/-- Embeds `DistributedZCD._fuse_consensus`: with an empty weight table
(no node has a neighbor) every fused value is the plain mean of the local
frequencies; otherwise each node gets one Metropolis-weighted blend
`(1 - alpha) * f_i + alpha * (w_ii * f_i + Σ_j w_ij * local_f.get(j, f_i))`. -/
def fuse_consensus (d : DistributedZCD) (local_f : List (String × ℚ)) :
    List (String × ℚ) :=
  if ¬hasGraph d.adj then
    let m := (local_f.map Prod.snd).sum / ((max 1 local_f.length : ℕ) : ℚ)
    local_f.map (fun p => (p.1, m))
  else
    local_f.map (fun p =>
      let i := p.1
      let fi := p.2
      let acc := metropolis_weights d.adj i i * fi +
        (((d.adj.lookup i).getD []).map
          (fun j => metropolis_weights d.adj i j * ((local_f.lookup j).getD fi))).sum
      (i, (1 - d.alpha) * fi + d.alpha * acc))

/-- Per-node payload of one distributed sample: a node key may be absent
from the mapping entirely (`lookup` gives `none`), present with a record
lacking the `"value"` field (`some none`), or present with a value
(`some (some v)`). -/
abbrev NodePayload := List (String × Option ℚ)

/-- Embeds the per-node sample read of `DistributedZCD.step`:
`float(nodes_payload.get(n, {}).get("value", 0.0))` — both an absent node
entry and an entry without a `"value"` field silently default to `0.0`. -/
def payloadValue (payload : NodePayload) (n : String) : ℚ :=
  ((payload.lookup n).join).getD 0

/-- The `"fused"` part of the dictionary returned by `step`. -/
structure StepFused where
  mean_freq_hz : ℚ
  mean_rocof_hz_s : ℚ
  consensus_freq_hz : Option (List (String × ℚ))
deriving DecidableEq, Repr

/-- The dictionary returned by `DistributedZCD.step`:
timestamp, per-node local `(freq_hz, rocof_hz_s)`, and the fused section. -/
structure StepResult where
  timestamp : ℚ
  localOut : List (String × ℚ × ℚ)
  fused : StepFused
deriving DecidableEq, Repr

/-- Embeds `DistributedZCD.step`: every configured node is updated with
`payloadValue` (so missing per-node data is processed as the sample `0.0`
and never raises), the plain means are always computed, and when
`fuse == "consensus"` the consensus values and their average headline are
added; the cached fused estimates are refreshed. -/
def DistributedZCD.step (d : DistributedZCD) (ts : ℚ) (payload : NodePayload) :
    DistributedZCD × StepResult :=
  let upd : List (String × ZCDState × ZCDOut) :=
    d.cores.map (fun p =>
      (p.1, update_scalar d.coreCfg p.2 (payloadValue payload p.1) ts))
  let local_freq : List (String × ℚ) := upd.map (fun p => (p.1, p.2.2.freq_hz))
  let local_rocof : List (String × ℚ) := upd.map (fun p => (p.1, p.2.2.rocof_hz_s))
  let mean_f := (local_freq.map Prod.snd).sum / ((max 1 local_freq.length : ℕ) : ℚ)
  let mean_r := (local_rocof.map Prod.snd).sum / ((max 1 local_rocof.length : ℕ) : ℚ)
  let newCores := upd.map (fun p => (p.1, p.2.1))
  let localOut := upd.map (fun p => (p.1, p.2.2.freq_hz, p.2.2.rocof_hz_s))
  if d.fuse_mode = "consensus" then
    let fused_freq := fuse_consensus d local_freq
    let headline := (fused_freq.map Prod.snd).sum / ((max 1 fused_freq.length : ℕ) : ℚ)
    ({ d with cores := newCores, last_fused_freq := some headline,
              last_fused_rocof := some mean_r },
     { timestamp := ts, localOut := localOut,
       fused := { mean_freq_hz := mean_f, mean_rocof_hz_s := mean_r,
                  consensus_freq_hz := some fused_freq } })
  else
    ({ d with cores := newCores, last_fused_freq := some mean_f,
              last_fused_rocof := some mean_r },
     { timestamp := ts, localOut := localOut,
       fused := { mean_freq_hz := mean_f, mean_rocof_hz_s := mean_r,
                  consensus_freq_hz := none } })

/-! ## Refinement targets written from the specification text

These definitions are transcribed from the words of the specification and
of the claims, not from the source; they exist only to be compared with the
source-derived definitions above. -/

/-- Modelled from the spec (refinement target for the crossing detector):
classify each sample into sign region `{-1, 0, +1}` with the deadband
(`> eps → +1`, `< -eps → −1`, else 0); `neg_to_pos` requires prev-sign
= −1 and curr-sign ≥ 0, `pos_to_neg` is the mirror, `either` requires both
signs nonzero and different; on a crossing with `curr_val == prev_val` the
crossing time is `curr_ts`, otherwise
`t_cross = prev_ts + (−prev_val/(curr_val − prev_val))·(curr_ts − prev_ts)`. -/
def claim_detect (prev_val prev_ts curr_val curr_ts eps : ℚ)
    (mode : CrossingMode) : Bool × Option ℚ :=
  let s0 : Int := if prev_val > eps then 1 else if prev_val < -eps then -1 else 0
  let s1 : Int := if curr_val > eps then 1 else if curr_val < -eps then -1 else 0
  let crossed : Bool :=
    match mode with
    | CrossingMode.neg_to_pos => decide (s0 = -1 ∧ s1 ≥ 0)
    | CrossingMode.pos_to_neg => decide (s0 = 1 ∧ s1 ≤ 0)
    | CrossingMode.either => decide (s0 ≠ 0 ∧ s1 ≠ 0 ∧ s1 ≠ s0)
  if crossed then
    (true, some (if curr_val = prev_val then curr_ts
      else prev_ts + ((-prev_val) / (curr_val - prev_val)) * (curr_ts - prev_ts)))
  else (false, none)

/-- Modelled from the claim (refinement target for the IpDFT formula): with
`mag` the magnitudes of the first `frame_len//2` DFT bins and `k` the index
of the maximum magnitude, if `1 ≤ k ≤ frame_len//2 − 2` then
`delta = 0.5·(mag[k−1] − mag[k+1]) / (mag[k−1] − 2·mag[k] + mag[k+1])`,
`0` when that denominator is exactly `0`; otherwise `delta = 0`; the
frequency is `(k + delta)·fs/frame_len`. -/
def claim_ipdft_freq (mag : List ℚ) (fs : ℚ) (frame_len : ℕ) : ℚ :=
  let k := argmax mag
  let delta : ℚ :=
    if 1 ≤ k ∧ k ≤ frame_len / 2 - 2 then
      let denom := mag.getD (k - 1) 0 - 2 * mag.getD k 0 + mag.getD (k + 1) 0
      if denom = 0 then 0
      else (1 / 2) * (mag.getD (k - 1) 0 - mag.getD (k + 1) 0) / denom
    else 0
  ((k : ℚ) + delta) * fs / (frame_len : ℚ)

/-! ## Concrete instances used by witnesses and counterexamples -/

/-- Single-phase estimator with the default configuration (deadband 0)
whose memory holds a previous sample (−1 at t = 2 s) and a recorded
crossing at t = 0.5 s. -/
def zcPeriodCex : ZeroCrossing :=
  { config := {},
    memory := some { prev_val := some (-1), prev_ts := some 2,
                     last_cross_ts := some (1 / 2) } }

/-- Snapshot with `V1 = 1` at t = 3 s (crossing pair with `zcPeriodCex`
interpolates to t = 2.5 s, a period of 2 s since the last crossing). -/
def inPeriodCex : PMU_Input :=
  { V1 := 1, V2 := 0, V3 := 0, I1 := 0, I2 := 0, I3 := 0, timestamp := 3 }

/-- Core state used by the C1 witness: previous sample −1 at t = 0 with a
recorded crossing at t = 0. -/
def stPeriodWit : ZCDState :=
  { prev_val := some (-1), prev_ts := some 0, last_cross_ts := some 0 }

/-- Single-phase estimator used by the C1 witness: default configuration
with the memory of `stPeriodWit`. -/
def zcPeriodWit : ZeroCrossing :=
  { config := {},
    memory := some { prev_val := some (-1), prev_ts := some 0,
                     last_cross_ts := some 0 } }

/-- Snapshot with `V1 = 1` at t = 1 s. -/
def inPeriodWit : PMU_Input :=
  { V1 := 1, V2 := 0, V3 := 0, I1 := 0, I2 := 0, I3 := 0, timestamp := 1 }

/-- Single-phase estimator with deadband `epsilon = 1/2` whose memory holds
the previous sample −1 at t = 0 and no recorded crossing yet. -/
def zcDeadbandCex : ZeroCrossing :=
  { config := { epsilon := 1 / 2 },
    memory := some { prev_val := some (-1), prev_ts := some 0 } }

/-- Snapshot with `V1 = 0` at t = 3 s: the value 0 sits inside the deadband
(sign region 0), so the claimed rule reports a neg→pos crossing while the
single-phase inline rule does not. -/
def inDeadbandCex : PMU_Input :=
  { V1 := 0, V2 := 0, V3 := 0, I1 := 0, I2 := 0, I3 := 0, timestamp := 3 }

/-- A freshly constructed single-phase estimator with default
configuration: the memory dictionary holds the six state keys, all `None`. -/
def freshZC : ZeroCrossing :=
  { config := {}, memory := some {} }

/-- Arbitrary valid snapshot (V1 = 1 at t = 0). -/
def inFresh : PMU_Input :=
  { V1 := 1, V2 := 0, V3 := 0, I1 := 0, I2 := 0, I3 := 0, timestamp := 0 }

/-- The estimator state after `freshZC` processes `inFresh`: the sample is
remembered, no crossing information exists yet. -/
def zcAfterFresh : ZeroCrossing :=
  { config := {},
    memory := some { prev_val := some 1, prev_ts := some 0 } }

/-- The output record `freshZC` returns for `inFresh`: nominal frequency,
zero RoCoF, and the default (OK) status word. -/
def outAfterFresh : PMU_Output :=
  { phasors := [("V1", 1, 0), ("V2", 0, 0), ("V3", 0, 0),
                ("I1", 0, 0), ("I2", 0, 0), ("I3", 0, 0)],
    frequency_hz := 60, rocof_hz_s := 0, timestamp_utc := 0 }

/-- Single-phase estimator configured with the channel name `V7`, which no
`PMU_Input` snapshot carries. -/
def zcBadChannel : ZeroCrossing :=
  { config := { channel := "V7" }, memory := some {} }

/-- Frequency-domain estimator configured with the missing channel `V7`
(3-sample frame, buffer primed with 9s so the written cell is visible). -/
def ipdftBadChannel : IpDFT :=
  { fs := 5, frame_len := 3, channel := "V7", nominal_hz := 60,
    buffer := [9, 9, 9], ptr := 0, filled := false,
    last_freq := none, last_ts := none }

/-- Snapshot whose `V1` is 5 (so silently reading 0 instead is visible). -/
def inBadChannel : PMU_Input :=
  { V1 := 5, V2 := 0, V3 := 0, I1 := 0, I2 := 0, I3 := 0, timestamp := 1 }

/-- A filled frequency-domain estimator over a 3-sample frame. -/
def ipdftFilled : IpDFT :=
  { fs := 6, frame_len := 3, channel := "V1", nominal_hz := 60,
    buffer := [1, 3, 1], ptr := 0, filled := true,
    last_freq := none, last_ts := none }

/-- Concrete two-node engine with a nonempty weight table (`b` lists `a` as
neighbor) in which node `a` itself has no neighbors. -/
def distMixedPair : DistributedZCD :=
  { nodes := ["a", "b"],
    coreCfg := {},
    cores := [("a", {}), ("b", {})],
    adj := [("a", []), ("b", ["a"])],
    fuse_mode := "consensus",
    alpha := 1,
    last_fused_freq := none, last_fused_rocof := none }

/-- Concrete two-node engine in which every node is isolated; the two
per-node cores carry the last accepted frequencies 1 Hz and 3 Hz (the state
reached after each node has timed its own crossings). -/
def distIsolatedPair : DistributedZCD :=
  { nodes := ["a", "b"],
    coreCfg := {},
    cores := [("a", { last_freq := some 1 }), ("b", { last_freq := some 3 })],
    adj := [("a", []), ("b", [])],
    fuse_mode := "consensus",
    alpha := 1,
    last_fused_freq := none, last_fused_rocof := none }


/-! ## Theorems about crossing detection and the period filter -/

/-- Helper: the boolean component of `detect_crossing` is the mode test
applied to the two sign regions. -/
theorem detect_crossing_fst (pv pts cv cts eps : ℚ) (mode : CrossingMode) :
    (detect_crossing pv pts cv cts eps mode).1
      = crossing_test mode (sign_region pv eps) (sign_region cv eps) := by
  unfold detect_crossing
  by_cases h : crossing_test mode (sign_region pv eps) (sign_region cv eps) = true <;>
    by_cases hdx : cv - pv = 0 <;>
      simp [h, hdx]

/-- Helper: with a zero deadband, sign region −1 means a negative value. -/
theorem sign_region_zero_neg (x : ℚ) : sign_region x 0 = -1 ↔ x < 0 := by
  unfold sign_region
  split_ifs with h1 h2
  · constructor
    · intro h; exact absurd h (by decide)
    · intro h; exact absurd h (by linarith)
  · simp only [neg_zero] at h2
    simp [h2]
  · simp only [neg_zero] at h2
    constructor
    · intro h; exact absurd h (by decide)
    · intro h; exact absurd h h2

/-- Helper: with a zero deadband, a nonnegative sign region means a
nonnegative value. -/
theorem sign_region_zero_nonneg (x : ℚ) : 0 ≤ sign_region x 0 ↔ 0 ≤ x := by
  unfold sign_region
  split_ifs with h1 h2
  · constructor
    · intro _; linarith
    · intro _; decide
  · simp only [neg_zero] at h2
    constructor
    · intro h; exact absurd h (by decide)
    · intro h; exact absurd h2 (by linarith)
  · simp only [neg_zero] at h2
    constructor
    · intro _; linarith [not_lt.mp h2]
    · intro _; decide

/-- C2 (amended): the core `detect_crossing` — the detector used by the
multi-phase and distributed variants — implements exactly the claimed
sign-region/mode rule and interpolation formula (first conjunct, a full
refinement against the spec-transcribed `claim_detect`).  The single-phase
`ZeroCrossing`, however, uses its own inline rule `prev_val < -eps ∧
curr_val ≥ eps` (`singleCrossedCond`): it coincides with the claimed rule
when `epsilon = 0` (second conjunct), and its interpolated crossing time
follows the claimed formula (third conjunct). -/
theorem crossing_detection_rule :
    (∀ pv pts cv cts eps mode,
      detect_crossing pv pts cv cts eps mode
        = claim_detect pv pts cv cts eps mode) ∧
    (∀ pv x pts cts,
      singleCrossedCond 0 pv x
        = (detect_crossing pv pts x cts 0 CrossingMode.neg_to_pos).1) ∧
    (∀ pv pts x ts, singleTCross pv pts x ts
      = if x = pv then ts
        else pts + ((-pv) / (x - pv)) * (ts - pts)) := by
  refine ⟨?_, ?_, ?_⟩
  · intro pv pts cv cts eps mode
    unfold detect_crossing claim_detect crossing_test sign_region
    refine if_congr Iff.rfl ?_ rfl
    by_cases hdx : cv - pv = 0
    · have hcp : cv = pv := sub_eq_zero.mp hdx
      simp [hdx, hcp]
    · have hcp : ¬(cv = pv) := fun hh => hdx (by rw [hh]; ring)
      simp only [if_neg hdx, if_neg hcp, Prod.mk.injEq, Option.some.injEq,
        true_and]
      ring
  · intro pv x pts cts
    rw [detect_crossing_fst]
    unfold singleCrossedCond crossing_test
    rw [decide_eq_decide, neg_zero, sign_region_zero_neg, sign_region_zero_nonneg]
  · intro pv pts x ts
    unfold singleTCross
    by_cases hdx : x - pv = 0
    · have hcp : x = pv := sub_eq_zero.mp hdx
      simp [hdx, hcp]
    · have hcp : ¬(x = pv) := fun hh => hdx (by rw [hh]; ring)
      simp only [ne_eq, hdx, not_false_eq_true, if_true, if_neg hcp]
      ring

/-- C2 witness: a concrete neg→pos crossing pair (−1 at 0 s, +1 at 1 s,
deadband 0), instantiating all three conjuncts of the detection-rule
theorem. -/
theorem crossing_detection_rule_witness :
    detect_crossing (-1) 0 1 1 0 CrossingMode.neg_to_pos
      = claim_detect (-1) 0 1 1 0 CrossingMode.neg_to_pos ∧
    singleCrossedCond 0 (-1) 1
      = (detect_crossing (-1) 0 1 1 0 CrossingMode.neg_to_pos).1 ∧
    singleTCross (-1) 0 1 1
      = if (1 : ℚ) = -1 then (1 : ℚ)
        else 0 + ((-(-1)) / (1 - -1)) * (1 - 0) :=
  ⟨crossing_detection_rule.1 (-1) 0 1 1 0 CrossingMode.neg_to_pos,
   crossing_detection_rule.2.1 (-1) 1 0 1,
   crossing_detection_rule.2.2 (-1) 0 1 1⟩

/-- C2 counterexample: deadband `epsilon = 1/2`, previous sample −1,
current sample 0.  The claimed rule classifies the current sample into sign
region 0 and reports a neg→pos crossing (the core detector returns `true`),
but the single-phase estimator's inline rule needs `curr_val ≥ 1/2`, so its
update records no crossing: `last_cross_ts` remains `None`. -/
theorem single_deadband_rule_cex :
    (detect_crossing (-1) 0 0 3 (1 / 2) CrossingMode.neg_to_pos).1 = true ∧
    (ZeroCrossing.update zcDeadbandCex inDeadbandCex).map
        (fun r => r.1.memory.map (fun mm => mm.last_cross_ts))
      = Except.ok (some none) := by
  constructor
  · rw [detect_crossing_fst]
    norm_num [crossing_test, sign_region]
  · norm_num [ZeroCrossing.update, zcDeadbandCex, inDeadbandCex,
      PMU_Input.getChannel, singleCrossedCond, Except.map]

/-- C1 (amended): in the core `update_scalar` — the state machine behind
the multi-phase and distributed variants — when a crossing is detected and
a prior crossing timestamp is recorded, the four frequency/timestamp fields
shift if and only if the interpolated period lies within
`[min_period_s, max_period_s]`, and are all left unchanged otherwise, while
`prev_val`/`prev_ts` always advance (first conjunct).  The single-phase
`ZeroCrossing` has no such filter: it shifts the four fields if and only if
the interpolated period is strictly positive (second conjunct). -/
theorem period_filter_frame_effect :
    (∀ (cfg : ZCDConfig) (st : ZCDState) (value ts pv pts tc lct : ℚ),
      st.prev_val = some pv → st.prev_ts = some pts →
      detect_crossing pv pts value ts cfg.epsilon cfg.mode = (true, some tc) →
      st.last_cross_ts = some lct →
      ((update_scalar cfg st value ts).1.last_freq,
       (update_scalar cfg st value ts).1.prev_freq,
       (update_scalar cfg st value ts).1.last_cross_ts,
       (update_scalar cfg st value ts).1.prev_cross_ts,
       (update_scalar cfg st value ts).1.prev_val,
       (update_scalar cfg st value ts).1.prev_ts)
        = if cfg.min_period_s ≤ tc - lct ∧ tc - lct ≤ cfg.max_period_s then
            (some (1 / (tc - lct)), st.last_freq, some tc, some lct,
             some value, some ts)
          else
            (st.last_freq, st.prev_freq, st.last_cross_ts, st.prev_cross_ts,
             some value, some ts)) ∧
    (∀ (e : ZeroCrossing) (m : PMU_Input) (mem : ZCMemory) (x pv pts lct : ℚ),
      e.memory = some mem →
      m.getChannel e.config.channel = some x →
      mem.prev_val = some pv → mem.prev_ts = some pts →
      singleCrossedCond e.config.epsilon pv x = true →
      mem.last_cross_ts = some lct →
      (ZeroCrossing.update e m).map (fun r => r.1.memory.map (fun mm =>
          (mm.last_freq, mm.prev_freq, mm.last_cross_ts, mm.prev_cross_ts)))
        = Except.ok (some
            (if 0 < singleTCross pv pts x m.timestamp - lct then
              (some (1 / (singleTCross pv pts x m.timestamp - lct)),
               mem.last_freq, some (singleTCross pv pts x m.timestamp),
               some lct)
            else
              (mem.last_freq, mem.prev_freq, mem.last_cross_ts,
               mem.prev_cross_ts)))) := by
  constructor
  · intro cfg st value ts pv pts tc lct hpv hpts hdet hlct
    simp only [update_scalar, hpv, hpts, hlct, hdet]
    split_ifs with hper <;> simp [hlct]
  · intro e m mem x pv pts lct hmem hchan hpv hpts hcond hlct
    simp only [ZeroCrossing.update, hchan, hmem, hpv, hpts, hcond, hlct]
    split_ifs with hper <;> simp [hlct, Except.map]

/-- C1 witness: the crossing pair (−1 at 0 s, +1 at 1 s) with the default
configuration interpolates to t = 0.5 s; against the recorded crossing at
0 s the period 0.5 s lies inside `[1e-6, 1]` (and is positive), so both
conjuncts are exercised on their accepting branch. -/
theorem period_filter_frame_effect_witness :
    (((update_scalar {} stPeriodWit 1 1).1.last_freq,
      (update_scalar {} stPeriodWit 1 1).1.prev_freq,
      (update_scalar {} stPeriodWit 1 1).1.last_cross_ts,
      (update_scalar {} stPeriodWit 1 1).1.prev_cross_ts,
      (update_scalar {} stPeriodWit 1 1).1.prev_val,
      (update_scalar {} stPeriodWit 1 1).1.prev_ts)
        = if ({} : ZCDConfig).min_period_s ≤ (1 / 2 : ℚ) - 0 ∧
              (1 / 2 : ℚ) - 0 ≤ ({} : ZCDConfig).max_period_s then
            (some (1 / ((1 / 2 : ℚ) - 0)), stPeriodWit.last_freq,
             some (1 / 2 : ℚ), some (0 : ℚ), some (1 : ℚ), some (1 : ℚ))
          else
            (stPeriodWit.last_freq, stPeriodWit.prev_freq,
             stPeriodWit.last_cross_ts, stPeriodWit.prev_cross_ts,
             some (1 : ℚ), some (1 : ℚ))) ∧
    ((ZeroCrossing.update zcPeriodWit inPeriodWit).map (fun r =>
        r.1.memory.map (fun mm =>
          (mm.last_freq, mm.prev_freq, mm.last_cross_ts, mm.prev_cross_ts)))
      = Except.ok (some
          (if 0 < singleTCross (-1) 0 1 inPeriodWit.timestamp - 0 then
            (some (1 / (singleTCross (-1) 0 1 inPeriodWit.timestamp - 0)),
             (none : Option ℚ), some (singleTCross (-1) 0 1 inPeriodWit.timestamp),
             some (0 : ℚ))
          else
            ((none : Option ℚ), (none : Option ℚ), some (0 : ℚ),
             (none : Option ℚ))))) :=
  ⟨period_filter_frame_effect.1 {} stPeriodWit 1 1 (-1) 0 (1 / 2) 0 rfl rfl
      (by norm_num [detect_crossing, crossing_test, sign_region]) rfl,
   period_filter_frame_effect.2 zcPeriodWit inPeriodWit
      { prev_val := some (-1), prev_ts := some 0, last_cross_ts := some 0 }
      1 (-1) 0 0 rfl rfl rfl rfl
      (by norm_num [singleCrossedCond, zcPeriodWit]) rfl⟩

/-- C1 counterexample: the single-phase estimator accepts a crossing whose
interpolated period (2 s) exceeds the claimed upper bound
`max_period_s = 1`: starting from a recorded crossing at 0.5 s, the pair
(−1 at 2 s, +1 at 3 s) interpolates to 2.5 s, and `update` shifts
`last_freq` to 1/2 and `last_cross_ts` to 5/2 instead of leaving them
unchanged. -/
theorem single_no_period_filter_cex :
    ({} : ZCDConfig).max_period_s < 2 ∧
    (ZeroCrossing.update zcPeriodCex inPeriodCex).map
        (fun r => r.1.memory.map (fun mm => (mm.last_freq, mm.last_cross_ts)))
      = Except.ok (some (some (1 / 2 : ℚ), some (5 / 2 : ℚ))) := by
  constructor
  · show (1 : ℚ) < 2
    norm_num
  · norm_num [ZeroCrossing.update, zcPeriodCex, inPeriodCex,
      PMU_Input.getChannel, singleCrossedCond, singleTCross, Except.map]

/-! ## Theorems about the Metropolis weight table and consensus fusion -/

/-- C5: for every adjacency map and every node `i`, the Metropolis-Hastings
neighbor weights of row `i` sum to strictly less than 1 — so the clamp in
`w_ii = max(0, 1 - s)` never fires — and the full row including the
self-weight sums exactly to 1.  (The sum ranges over the neighbor list
occurrences, exactly as the accumulation loop of `metropolis_weights`
does.) -/
theorem metropolis_row_sums_to_one (adj : Adjacency) (i : String) :
    neighborSum adj i < 1 ∧ selfWeight adj i + neighborSum adj i = 1 := by
  have hdpos : (0 : ℚ) < 1 + (deg adj i : ℚ) := by positivity
  have hlt : neighborSum adj i < 1 := by
    have hbound : ∀ x ∈ (((adj.lookup i).getD []).map
        (fun j => neighborWeight adj i j)), x ≤ 1 / (1 + (deg adj i : ℚ)) := by
      intro x hx
      obtain ⟨j, hj, rfl⟩ := List.mem_map.mp hx
      unfold neighborWeight
      apply one_div_le_one_div_of_le hdpos
      have hmax : (deg adj i : ℚ) ≤ ((max (deg adj i) (deg adj j) : ℕ) : ℚ) := by
        exact_mod_cast le_max_left _ _
      linarith
    have hsum := List.sum_le_card_nsmul _ _ hbound
    rw [List.length_map] at hsum
    have hlen : (((adj.lookup i).getD []).length : ℚ) ≤ (deg adj i : ℚ) := by
      exact_mod_cast le_max_right 1 ((adj.lookup i).getD []).length
    calc neighborSum adj i
        = (((adj.lookup i).getD []).map (fun j => neighborWeight adj i j)).sum := rfl
      _ ≤ ((adj.lookup i).getD []).length • (1 / (1 + (deg adj i : ℚ))) := hsum
      _ = (((adj.lookup i).getD []).length : ℚ) * (1 / (1 + (deg adj i : ℚ))) := by
          rw [nsmul_eq_mul]
      _ ≤ (deg adj i : ℚ) * (1 / (1 + (deg adj i : ℚ))) :=
          mul_le_mul_of_nonneg_right hlen (by positivity)
      _ < 1 := by
          rw [mul_one_div, div_lt_one hdpos]; linarith
  refine ⟨hlt, ?_⟩
  unfold selfWeight
  rw [max_eq_right (by linarith)]
  ring

/-- C4 (amended): under `fuse = consensus`, whenever the Metropolis weight
table is nonempty (some configured node has a neighbor), a node `i` that is
in the adjacency with no neighbors keeps its own local frequency through
consensus fusion, for every `alpha`; when instead every node is isolated
the weight table is empty and fusion falls back to the plain mean of all
local frequencies. -/
theorem consensus_isolated_node_keeps_local (d : DistributedZCD)
    (local_f : List (String × ℚ)) (i : String) (fi : ℚ)
    (hW : hasGraph d.adj = true)
    (hiso : d.adj.lookup i = some [])
    (hmem : (i, fi) ∈ local_f) :
    (i, fi) ∈ fuse_consensus d local_f := by
  have hii : metropolis_weights d.adj i i = 1 := by
    simp [metropolis_weights, hiso, selfWeight, neighborSum]
  unfold fuse_consensus
  rw [if_neg (by simp [hW])]
  refine List.mem_map.mpr ⟨(i, fi), hmem, ?_⟩
  simp only [hiso, Option.getD_some, List.map_nil, List.sum_nil, add_zero, hii,
    one_mul, Prod.mk.injEq, true_and]
  ring

/-- C4 witness: in the two-node engine `distMixedPair`, the isolated node
`a` keeps its local frequency 1 through consensus fusion. -/
theorem consensus_isolated_node_keeps_local_witness :
    ("a", (1 : ℚ)) ∈ fuse_consensus distMixedPair [("a", 1), ("b", 3)] :=
  consensus_isolated_node_keeps_local distMixedPair [("a", 1), ("b", 3)] "a" 1
    (by decide) (by decide) (by decide)

set_option maxHeartbeats 1600000 in
/-- C4 counterexample: with every node isolated (the adjacency produced by
`DistributedZCD.init` for nodes `a`,`b` and an empty adjacency config), the
weight table is empty and `step` reports the plain mean 2 as node `a`'s
consensus value even though its local frequency is 1 — so `fused_i ==
local_i` fails in the all-isolated configuration. -/
theorem consensus_all_isolated_mean_cex :
    (DistributedZCD.init ["a", "b"] [] 0 60 CrossingMode.neg_to_pos
        "consensus" 1).map (fun d => d.adj) = Except.ok distIsolatedPair.adj ∧
    (distIsolatedPair.step 0 []).2.fused.consensus_freq_hz
      = some [("a", 2), ("b", 2)] ∧
    (distIsolatedPair.step 0 []).2.localOut.lookup "a" = some (1, 0) ∧
    ((2 : ℚ) ≠ 1) := by
  refine ⟨rfl, ?_, ?_, by norm_num⟩
  · norm_num [distIsolatedPair, DistributedZCD.step, fuse_consensus, hasGraph,
      payloadValue, update_scalar, detect_crossing, sign_region, List.lookup]
  · norm_num [distIsolatedPair, DistributedZCD.step, fuse_consensus, hasGraph,
      payloadValue, update_scalar, detect_crossing, sign_region, List.lookup]

/-- C10: a configured node absent from the per-node payload, or present
without a `value` entry, is processed exactly as if its sample value were
`0.0`: the read defaults to `0`, and the whole `step` result (local
estimates, plain means, consensus fusion and updated state) is identical to
the result with an explicit `0` sample for that node; the node still
appears in the per-node local output, so it contributes to the plain mean
and to fusion.  `step` is a total function of the payload — no missing
per-node data can make it raise. -/
theorem step_missing_node_data_defaults_zero (d : DistributedZCD) (ts : ℚ)
    (payload : NodePayload) (n : String)
    (h : (payload.lookup n).join = none) :
    payloadValue payload n = 0 ∧
    d.step ts payload = d.step ts ((n, some 0) :: payload) ∧
    (∀ st : ZCDState, (n, st) ∈ d.cores →
      (n, (update_scalar d.coreCfg st 0 ts).2.freq_hz,
          (update_scalar d.coreCfg st 0 ts).2.rocof_hz_s)
        ∈ (d.step ts payload).2.localOut) := by
  have hval : payloadValue payload n = 0 := by
    unfold payloadValue
    rw [h]
    rfl
  have hfun : payloadValue ((n, some 0) :: payload) = payloadValue payload := by
    funext m
    by_cases hm : m = n
    · subst hm
      unfold payloadValue
      rw [h]
      simp [List.lookup, Option.join]
    · unfold payloadValue
      simp only [List.lookup, beq_eq_false_iff_ne.mpr hm]
  have hloc : (d.step ts payload).2.localOut = d.cores.map
      (fun p : String × ZCDState =>
        (p.1, (update_scalar d.coreCfg p.2 (payloadValue payload p.1) ts).2.freq_hz,
              (update_scalar d.coreCfg p.2 (payloadValue payload p.1) ts).2.rocof_hz_s)) := by
    unfold DistributedZCD.step
    by_cases hf : d.fuse_mode = "consensus" <;> simp [hf, List.map_map]
  refine ⟨hval, ?_, ?_⟩
  · unfold DistributedZCD.step
    rw [hfun]
  · intro st hst
    have hmm := List.mem_map_of_mem
      (f := fun p : String × ZCDState =>
        (p.1, (update_scalar d.coreCfg p.2 (payloadValue payload p.1) ts).2.freq_hz,
              (update_scalar d.coreCfg p.2 (payloadValue payload p.1) ts).2.rocof_hz_s))
      hst
    rw [hloc]
    simpa [hval] using hmm

/-- C10 witness: a concrete engine, a payload that names only an unrelated
node, and the node `a` that is absent from it. -/
theorem step_missing_node_data_defaults_zero_witness :
    payloadValue [("x", some 5)] "a" = 0 ∧
    distIsolatedPair.step 0 [("x", some 5)]
      = distIsolatedPair.step 0 [("a", some 0), ("x", some 5)] ∧
    (∀ st : ZCDState, ("a", st) ∈ distIsolatedPair.cores →
      ("a", (update_scalar distIsolatedPair.coreCfg st 0 0).2.freq_hz,
          (update_scalar distIsolatedPair.coreCfg st 0 0).2.rocof_hz_s)
        ∈ (distIsolatedPair.step 0 [("x", some 5)]).2.localOut) :=
  step_missing_node_data_defaults_zero distIsolatedPair 0 [("x", some 5)] "a"
    (by decide)

/-! ## Theorems about reset, construction validation and input contracts -/

/-- C3 (code bug): the core `ZCDEstimatorBase.reset` does restore the
freshly constructed state (first conjunct), but for the single-phase
`ZeroCrossing` the inherited `EstimatorBase.reset` merely clears the memory
dictionary and nothing re-creates the six state keys, so the next `update`
raises `KeyError` on its first read `self.memory["prev_val"]` — while the
same update on the freshly constructed estimator succeeds (remaining
conjuncts evaluate the code at the failing input). -/
theorem reset_then_update_raises_keyerror :
    (∀ st : ZCDState, zcd_reset st = ({} : ZCDState)) ∧
    ZeroCrossing.init {} = Except.ok freshZC ∧
    (ZeroCrossing.update freshZC inFresh).isOk = true ∧
    ZeroCrossing.update (ZeroCrossing.reset freshZC) inFresh
      = Except.error (PyError.keyError "prev_val") :=
  ⟨fun _ => rfl, rfl, rfl, rfl⟩

/-- Helper: `isOk` of an error result is `false`. -/
theorem isOk_error {α : Type} (e : PyError) :
    (Except.error e : Except PyError α).isOk = false := rfl

/-- Helper: `isOk` of a successful result is `true`. -/
theorem isOk_ok {α : Type} (a : α) :
    (Except.ok a : Except PyError α).isOk = true := rfl

/-- C7 (amended): only the frequency-domain estimator validates `fs` and
`frame_len` at construction — `IpDFT.init` succeeds exactly when `fs > 0`
and `frame_len ≥ 3` (first conjunct).  The zero-crossing variants perform
no `fs` validation at all: single-phase construction always succeeds,
whatever `fs` the configuration carries (second conjunct), and the
distributed engine's construction fails only on an empty node list (third
conjunct); the multi-phase constructor is a total function by the same
absence of checks. -/
theorem construction_validation :
    (∀ (fs : ℚ) (frame_len : ℕ) (channel : String) (nominal_hz : ℚ),
      (IpDFT.init fs frame_len channel nominal_hz).isOk = true
        ↔ (0 < fs ∧ 3 ≤ frame_len)) ∧
    (∀ cfg : ZCSingleConfig, (ZeroCrossing.init cfg).isOk = true) ∧
    (∀ (nodes : List String) (adjacency : Adjacency) (eps nom : ℚ)
        (mode : CrossingMode) (fuse : String) (alpha : ℚ),
      (DistributedZCD.init nodes adjacency eps nom mode fuse alpha).isOk = true
        ↔ nodes ≠ []) := by
  refine ⟨?_, fun cfg => rfl, ?_⟩
  · intro fs frame_len channel nominal_hz
    unfold IpDFT.init
    split_ifs with h1 h2
    · rw [isOk_error]
      simp only [Bool.false_eq_true, false_iff, not_and]
      intro hfs
      exact absurd h1 (not_le.mpr hfs)
    · rw [isOk_error]
      simp only [Bool.false_eq_true, false_iff, not_and]
      intro _
      omega
    · rw [isOk_ok]
      simp only [eq_self_iff_true, true_iff]
      exact ⟨not_le.mp h1, by omega⟩
  · intro nodes adjacency eps nom mode fuse alpha
    unfold DistributedZCD.init
    split_ifs with h1
    · rw [isOk_error]
      simp [h1]
    · rw [isOk_ok]
      simp [h1]

/-- C7 counterexample: constructing the single-phase estimator with
`fs = −1` in its configuration raises nothing — construction succeeds with
the normal initial memory — although the frequency-domain estimator
rejects the same sampling rate at construction. -/
theorem zc_accepts_nonpositive_fs_cex :
    ZeroCrossing.init { fs := -1 }
      = Except.ok { config := { fs := -1 }, memory := some {} } ∧
    (IpDFT.init (-1) 50 "V1" 60).isOk = false := by
  refine ⟨rfl, ?_⟩
  have h : IpDFT.init (-1) 50 "V1" 60
      = Except.error (PyError.valueError "IpDFT requires config fs > 0") := by
    unfold IpDFT.init
    rw [if_pos (by norm_num)]
  rw [h, isOk_error]

/-- C8 (amended): for a snapshot lacking the configured channel, the
single-phase estimator raises the `AttributeError` immediately (first
conjunct), but the frequency-domain estimator does not raise: it silently
reads the missing channel as `0.0` and writes that default into its frame
buffer, for any magnitude function (second conjunct). -/
theorem missing_channel_behavior :
    (∀ (e : ZeroCrossing) (m : PMU_Input),
      m.getChannel e.config.channel = none →
      ZeroCrossing.update e m = Except.error (PyError.attributeError
        ("PMU_Input does not have channel " ++ e.config.channel))) ∧
    (∀ (magFn : List ℚ → List ℚ) (e : IpDFT) (m : PMU_Input),
      m.getChannel e.channel = none →
      (IpDFT.update magFn e m).1.buffer = e.buffer.set e.ptr 0) := by
  constructor
  · intro e m h
    simp only [ZeroCrossing.update, h]
  · intro magFn e m h
    simp only [IpDFT.update, h, Option.getD_none]

/-- C8 witness: channel `V7` is missing from every snapshot; the
single-phase estimator raises and the frequency-domain estimator writes
the default `0`. -/
theorem missing_channel_behavior_witness :
    ZeroCrossing.update zcBadChannel inBadChannel
      = Except.error (PyError.attributeError
          ("PMU_Input does not have channel " ++ zcBadChannel.config.channel)) ∧
    (IpDFT.update (fun l => l) ipdftBadChannel inBadChannel).1.buffer
      = ipdftBadChannel.buffer.set ipdftBadChannel.ptr 0 :=
  ⟨missing_channel_behavior.1 zcBadChannel inBadChannel rfl,
   missing_channel_behavior.2 (fun l => l) ipdftBadChannel inBadChannel rfl⟩

/-- C8 counterexample: the frequency-domain estimator configured with the
absent channel `V7` processes a snapshot carrying `V1 = 5` without any
error: it returns a normal output record and buffers the silently
defaulted sample `0` — neither the error the claim requires nor the
snapshot's actual data. -/
theorem ipdft_missing_channel_defaults_cex :
    inBadChannel.getChannel "V7" = none ∧
    inBadChannel.V1 = 5 ∧
    (IpDFT.update (fun l => l) ipdftBadChannel inBadChannel).1.buffer
      = [0, 9, 9] ∧
    (IpDFT.update (fun l => l) ipdftBadChannel inBadChannel).2.timestamp_utc
      = 1 :=
  ⟨rfl, rfl, rfl, rfl⟩

/-! ## Theorems about the IpDFT formula and the status word -/

/-- C6: with a full frame, the peak-interpolation frequency matches the
claimed formula: for any magnitude list covering the first `frame_len//2`
bins, with `k` the first index of maximum magnitude, `delta` is the guarded
parabolic refinement exactly on interior `k` (`1 ≤ k ≤ frame_len//2 − 2`)
and the result is `(k + delta)·fs/frame_len` (first conjunct, a refinement
against the claim-transcribed `claim_ipdft_freq`); and a filled estimator's
`update` reports exactly this estimate applied to the magnitudes of the
updated buffer (second conjunct, for any magnitude function). -/
theorem ipdft_freq_formula :
    (∀ (mag : List ℚ) (fs : ℚ) (frame_len : ℕ),
      mag.length = frame_len / 2 →
      estimate_freq_from_mag mag fs frame_len
        = claim_ipdft_freq mag fs frame_len) ∧
    (∀ (magFn : List ℚ → List ℚ) (e : IpDFT) (m : PMU_Input),
      e.filled = true →
      (IpDFT.update magFn e m).2.frequency_hz
        = estimate_freq_from_mag
            (magFn ((IpDFT.update magFn e m).1.buffer)) e.fs e.frame_len) := by
  constructor
  · intro mag fs frame_len h
    unfold estimate_freq_from_mag claim_ipdft_freq
    dsimp only
    by_cases hk : 1 ≤ argmax mag ∧ argmax mag ≤ frame_len / 2 - 2
    · have hk' : 1 ≤ argmax mag ∧ argmax mag < mag.length - 1 := by omega
      rw [if_pos hk, if_pos hk']
      by_cases hden : (mag.getD (argmax mag - 1) 0 - 2 * mag.getD (argmax mag) 0
          + mag.getD (argmax mag + 1) 0) = 0
      · rw [if_neg (not_not_intro hden), if_pos hden]
      · rw [if_pos hden, if_neg hden]
    · have hk' : ¬(1 ≤ argmax mag ∧ argmax mag < mag.length - 1) := by omega
      rw [if_neg hk, if_neg hk']
  · intro magFn e m hfill
    simp [IpDFT.update, hfill]

/-- C6 witness: the magnitude list `[1, 3, 1]` of a 6-sample frame (half =
3 bins, peak at the interior bin k = 1), and a filled 3-sample estimator. -/
theorem ipdft_freq_formula_witness :
    estimate_freq_from_mag [1, 3, 1] 6 6 = claim_ipdft_freq [1, 3, 1] 6 6 ∧
    (IpDFT.update (fun l => l) ipdftFilled inFresh).2.frequency_hz
      = estimate_freq_from_mag
          ((fun l => l) ((IpDFT.update (fun l => l) ipdftFilled inFresh).1.buffer))
          ipdftFilled.fs ipdftFilled.frame_len :=
  ⟨ipdft_freq_formula.1 [1, 3, 1] 6 6 rfl,
   ipdft_freq_formula.2 (fun l => l) ipdftFilled inFresh rfl⟩

/-- Helper: the serialized mapping of any output record carries its integer
`status_word` under the key `STATUS_WORD` (the first four entries precede
all phasor-derived entries, so the lookup is position-independent of the
phasor map). -/
theorem standard_dict_status (o : PMU_Output) :
    o.to_standard_dict.lookup "STATUS_WORD"
      = some (StdValue.num ((o.status_word : ℕ) : ℚ)) := rfl

/-- C9: every output record that the single-phase, multi-phase, and
frequency-domain update paths return has `status_word = PMUStatus.OK` (the
zero value) — no path sets `DATA_ERROR`, `CLOCK_NOT_SYNCED`,
`PLL_UNLOCKED` or `OVER_RANGE` — and its serialized `STATUS_WORD` entry is
`0`. -/
theorem status_word_always_ok :
    (∀ (e : ZeroCrossing) (m : PMU_Input) (e2 : ZeroCrossing)
        (out : PMU_Output),
      ZeroCrossing.update e m = Except.ok (e2, out) →
      out.status_word = PMUStatus.OK ∧
      out.to_standard_dict.lookup "STATUS_WORD" = some (StdValue.num 0)) ∧
    (∀ (e : ZCDMulti) (m : PMU_Input),
      (ZCDMulti.update e m).2.status_word = PMUStatus.OK ∧
      (ZCDMulti.update e m).2.to_standard_dict.lookup "STATUS_WORD"
        = some (StdValue.num 0)) ∧
    (∀ (magFn : List ℚ → List ℚ) (e : IpDFT) (m : PMU_Input),
      (IpDFT.update magFn e m).2.status_word = PMUStatus.OK ∧
      (IpDFT.update magFn e m).2.to_standard_dict.lookup "STATUS_WORD"
        = some (StdValue.num 0)) := by
  refine ⟨?_, ?_, ?_⟩
  · intro e m e2 out h
    unfold ZeroCrossing.update at h
    dsimp only at h
    rcases hg : m.getChannel e.config.channel with - | x
    · rw [hg] at h
      exact Except.noConfusion h
    · rw [hg] at h
      rcases hm : e.memory with - | mem
      · rw [hm] at h
        exact Except.noConfusion h
      · rw [hm] at h
        injection h with hpair
        obtain ⟨-, hout⟩ := Prod.mk.injEq .. |>.mp hpair
        subst hout
        exact ⟨rfl, by rw [standard_dict_status]; norm_num [PMUStatus.OK]⟩
  · intro e m
    refine ⟨rfl, ?_⟩
    rw [standard_dict_status]
    norm_num [show (ZCDMulti.update e m).2.status_word = PMUStatus.OK from rfl,
      PMUStatus.OK]
  · intro magFn e m
    refine ⟨rfl, ?_⟩
    rw [standard_dict_status]
    norm_num [show (IpDFT.update magFn e m).2.status_word = PMUStatus.OK from rfl,
      PMUStatus.OK]

/-- C9 witness: the output the fresh single-phase estimator returns for
the snapshot `inFresh` has the OK status word and serializes it as 0. -/
theorem status_word_always_ok_witness :
    outAfterFresh.status_word = PMUStatus.OK ∧
    outAfterFresh.to_standard_dict.lookup "STATUS_WORD"
      = some (StdValue.num 0) :=
  status_word_always_ok.1 freshZC inFresh zcAfterFresh outAfterFresh rfl

end PSFE
